import Mathlib

/-!
Verification of the flake-review core against its specification.

The Python sources are shallowly embedded here:
  * `flake.py`   — `DerivationInfo`, `ChangeSet`, `FlakeOutputs` (as an explicit
    state record with an instrumented evaluator oracle), `compare_outputs`;
  * `build.py`   — `BuildResult`, `BuildResults`, `build_derivation`,
    `build_changes` (the external builder is an explicit oracle, the
    thread-pool completion order an explicit permutation parameter);
  * `report.py`  — the JSON report document model, `load_json_report`,
    `merge_json_reports`, `_render_markdown_from_json`,
    `format_detailed_changes`, `merge_markdown_reports` (the external
    `nix-diff` tool is an explicit oracle).

Python `dict`s keyed by strings are embedded as association lists with
first-insertion order and last-write-wins semantics (`dictInsert`,
`dictFind`), matching CPython's ordered dicts.
-/

namespace FlakeReview

/-- `DerivationInfo` from `flake.py`: one buildable unit. -/
structure DerivationInfo where
  attr_path : String
  drv_path : String
  output_type : String
  system : String
  name : String
deriving DecidableEq, Repr

/-- `ChangeSet` from `flake.py`. -/
structure ChangeSet where
  added : List DerivationInfo
  removed : List DerivationInfo
  modified : List (DerivationInfo × DerivationInfo)
deriving DecidableEq, Repr

/-- Python `d[k] = v` on an insertion-ordered dict: an existing key keeps its
position and gets the new value, a new key is appended. -/
def dictInsert {α : Type} (m : List (String × α)) (k : String) (v : α) :
    List (String × α) :=
  match m with
  | [] => [(k, v)]
  | (k', v') :: rest =>
      if k' = k then (k', v) :: rest else (k', v') :: dictInsert rest k v

/-- Python `d.get(k)` / `k in d`: the value stored at `k`, if any. -/
def dictFind {α : Type} (m : List (String × α)) (k : String) : Option α :=
  match m with
  | [] => none
  | (k', v) :: rest => if k' = k then some v else dictFind rest k

/-- Python dict comprehension over a list, keys taken by `key`
(`{key(x): x for x in l}`). -/
def buildDict {α : Type} (key : α → String) (l : List α) : List (String × α) :=
  l.foldl (fun m x => dictInsert m (key x) x) []

/-- The derivation maps built at the top of `compare_outputs`
(`{drv.attr_path: drv for drv in ...}`). -/
def buildMap (drvs : List DerivationInfo) : List (String × DerivationInfo) :=
  buildDict (fun d => d.attr_path) drvs

/-- `compare_outputs` from `flake.py`, acting on the two snapshots'
derivation lists (the values returned by `get_derivations`). -/
def compare_outputs (base_derivations target_derivations : List DerivationInfo) :
    ChangeSet :=
  let base_map := buildMap base_derivations
  let target_map := buildMap target_derivations
  let added :=
    (target_map.filter (fun kv => (dictFind base_map kv.1).isNone)).map Prod.snd
  let modified :=
    target_map.filterMap (fun kv =>
      match dictFind base_map kv.1 with
      | none => none
      | some b => if b.drv_path ≠ kv.2.drv_path then some (b, kv.2) else none)
  let removed :=
    (base_map.filter (fun kv => (dictFind target_map kv.1).isNone)).map Prod.snd
  ChangeSet.mk added removed modified

/-! ### Well-formedness of the derivation maps -/

/-- A dict produced by `buildDict key`: keys are pairwise distinct and each
entry's key is `key` of its value. -/
def DictWF {α : Type} (key : α → String) (m : List (String × α)) : Prop :=
  (m.map Prod.fst).Nodup ∧ ∀ kv ∈ m, key kv.2 = kv.1

theorem mem_dictInsert {α : Type} {m : List (String × α)} {k : String} {v : α}
    {kv : String × α} (h : kv ∈ dictInsert m k v) : kv ∈ m ∨ kv = (k, v) := by
  induction m with
  | nil => simp [dictInsert] at h; simp [h]
  | cons hd tl ih =>
      obtain ⟨k', v'⟩ := hd
      by_cases hk : k' = k
      · simp [dictInsert, hk] at h
        rcases h with h | h
        · right; simpa [hk] using h
        · left; simp [h]
      · simp [dictInsert, hk] at h
        rcases h with h | h
        · left; simp [h]
        · rcases ih h with h' | h'
          · left; simp [h']
          · right; exact h'

theorem keys_dictInsert {α : Type} {m : List (String × α)} {k : String} {v : α}
    {a : String} (h : a ∈ (dictInsert m k v).map Prod.fst) :
    a ∈ m.map Prod.fst ∨ a = k := by
  simp only [List.mem_map] at h
  obtain ⟨kv, hkv, rfl⟩ := h
  rcases mem_dictInsert hkv with h' | h'
  · left; exact List.mem_map_of_mem Prod.fst h'
  · right; simp [h']

theorem dictWF_insert {α : Type} {key : α → String} {m : List (String × α)}
    {v : α} (hwf : DictWF key m) : DictWF key (dictInsert m (key v) v) := by
  obtain ⟨hnd, hco⟩ := hwf
  constructor
  · clear hco
    induction m with
    | nil => simp [dictInsert]
    | cons hd tl ih =>
        obtain ⟨k', v'⟩ := hd
        simp only [List.map_cons, List.nodup_cons] at hnd
        by_cases hk : k' = key v
        · simpa [dictInsert, hk, List.nodup_cons] using hnd
        · simp only [dictInsert, hk, if_false, List.map_cons, List.nodup_cons]
          refine ⟨fun hmem => ?_, ih hnd.2⟩
          rcases keys_dictInsert hmem with h' | h'
          · exact hnd.1 h'
          · exact hk h'
  · intro kv hkv
    rcases mem_dictInsert hkv with h' | h'
    · exact hco kv h'
    · simp [h']

theorem dictWF_buildDict {α : Type} (key : α → String) (l : List α) :
    DictWF key (buildDict key l) := by
  suffices h : ∀ (m : List (String × α)), DictWF key m →
      DictWF key (l.foldl (fun m x => dictInsert m (key x) x) m) by
    exact h [] ⟨List.nodup_nil, by simp⟩
  induction l with
  | nil => intro m hm; simpa using hm
  | cons hd tl ih =>
      intro m hm
      exact ih _ (dictWF_insert hm)

theorem dictWF_buildMap (drvs : List DerivationInfo) :
    DictWF (fun d => d.attr_path) (buildMap drvs) :=
  dictWF_buildDict _ drvs

theorem dictFind_eq_none {α : Type} {m : List (String × α)} {k : String} :
    dictFind m k = none ↔ k ∉ m.map Prod.fst := by
  induction m with
  | nil => simp [dictFind]
  | cons hd tl ih =>
      obtain ⟨k', v'⟩ := hd
      by_cases hk : k' = k
      · simp [dictFind, hk]
      · simp [dictFind, hk, ih, Ne.symm hk]

theorem dictFind_some_mem {α : Type} {m : List (String × α)} {k : String}
    {v : α} (h : dictFind m k = some v) : (k, v) ∈ m := by
  induction m with
  | nil => simp [dictFind] at h
  | cons hd tl ih =>
      obtain ⟨k', v'⟩ := hd
      by_cases hk : k' = k
      · simp [dictFind, hk] at h
        simp [hk, h]
      · simp [dictFind, hk] at h
        exact List.mem_cons_of_mem _ (ih h)

theorem mem_dictFind {α : Type} {m : List (String × α)} {k : String} {v : α}
    (hnd : (m.map Prod.fst).Nodup) (h : (k, v) ∈ m) : dictFind m k = some v := by
  induction m with
  | nil => simp at h
  | cons hd tl ih =>
      obtain ⟨k', v'⟩ := hd
      simp only [List.map_cons, List.nodup_cons] at hnd
      rcases List.mem_cons.mp h with h' | h'
      · obtain ⟨rfl, rfl⟩ := Prod.mk.injEq .. ▸ h'
        simp_all [dictFind]
      · have hk : k' ≠ k := by
          intro hkk
          exact hnd.1 (hkk ▸ List.mem_map_of_mem Prod.fst h')
        simp [dictFind, hk, ih hnd.2 h']

/-! ### Classification of paths by `compare_outputs` -/

/-- Number of units in `l` whose `attr_path` is `p`. -/
def countPath (l : List DerivationInfo) (p : String) : Nat :=
  l.countP (fun d => d.attr_path == p)

/-- Number of modified pairs in `l` whose (new side's) `attr_path` is `p`. -/
def countPathPair (l : List (DerivationInfo × DerivationInfo)) (p : String) : Nat :=
  l.countP (fun q => q.2.attr_path == p)

/-- `p` is present in both maps with differing `drv_path`. -/
def modFlag (bm tm : List (String × DerivationInfo)) (p : String) : Bool :=
  match dictFind bm p, dictFind tm p with
  | some b, some t => b.drv_path != t.drv_path
  | _, _ => false

theorem compare_outputs_added (bs ts : List DerivationInfo) :
    (compare_outputs bs ts).added =
      ((buildMap ts).filter
        (fun kv => (dictFind (buildMap bs) kv.1).isNone)).map Prod.snd := rfl

theorem compare_outputs_removed (bs ts : List DerivationInfo) :
    (compare_outputs bs ts).removed =
      ((buildMap bs).filter
        (fun kv => (dictFind (buildMap ts) kv.1).isNone)).map Prod.snd := rfl

theorem compare_outputs_modified (bs ts : List DerivationInfo) :
    (compare_outputs bs ts).modified =
      (buildMap ts).filterMap (fun kv =>
        match dictFind (buildMap bs) kv.1 with
        | none => none
        | some b => if b.drv_path ≠ kv.2.drv_path then some (b, kv.2) else none) := rfl

theorem countP_key {α : Type} {n : List (String × α)}
    (hnd : (n.map Prod.fst).Nodup) (p : String) :
    n.countP (fun kv => kv.1 == p) = if (dictFind n p).isSome then 1 else 0 := by
  induction n with
  | nil => simp [dictFind]
  | cons hd tl ih =>
      obtain ⟨k, v⟩ := hd
      simp only [List.map_cons, List.nodup_cons] at hnd
      rw [List.countP_cons]
      by_cases hk : k = p
      · subst hk
        have h0 : tl.countP (fun kv => kv.1 == k) = 0 := by
          rw [List.countP_eq_zero]
          intro kv hkv
          simp only [beq_iff_eq]
          intro h
          exact hnd.1 (h ▸ List.mem_map_of_mem Prod.fst hkv)
        simp [dictFind, h0]
      · simp [dictFind, hk, ih hnd.2]

theorem countPath_filter {m n : List (String × DerivationInfo)} {p : String}
    (hwf : DictWF (fun d => d.attr_path) n) :
    countPath ((n.filter (fun kv => (dictFind m kv.1).isNone)).map Prod.snd) p =
      if ((dictFind m p).isNone && (dictFind n p).isSome) then 1 else 0 := by
  obtain ⟨hnd, hco⟩ := hwf
  rw [countPath, List.countP_map, List.countP_filter]
  have hcongr : ∀ kv ∈ n,
      (((fun d => d.attr_path == p) ∘ Prod.snd) kv
          && (dictFind m kv.1).isNone) = true
        ↔ ((kv.1 == p) && (dictFind m p).isNone) = true := by
    intro kv hkv
    have h2 : kv.2.attr_path = kv.1 := hco kv hkv
    simp only [Function.comp, h2, Bool.and_eq_true, beq_iff_eq]
    constructor
    · rintro ⟨rfl, h⟩; exact ⟨rfl, h⟩
    · rintro ⟨rfl, h⟩; exact ⟨rfl, h⟩
  rw [List.countP_congr hcongr]
  cases hmp : (dictFind m p).isNone
  · simp only [Bool.and_false, Bool.false_and, Bool.false_eq_true, if_false]
    simp
  · simp only [Bool.and_true, Bool.true_and]
    rw [countP_key hnd]

theorem countPathPair_filterMap {m n : List (String × DerivationInfo)}
    {p : String} (hwf : DictWF (fun d => d.attr_path) n) :
    countPathPair (n.filterMap (fun kv =>
      match dictFind m kv.1 with
      | none => none
      | some b => if b.drv_path ≠ kv.2.drv_path then some (b, kv.2) else none)) p
      = if modFlag m n p then 1 else 0 := by
  obtain ⟨hnd, hco⟩ := hwf
  rw [countPathPair, List.countP_filterMap]
  have hcongr : ∀ kv ∈ n,
      ((Option.map (fun q : DerivationInfo × DerivationInfo => q.2.attr_path == p)
          ((match dictFind m kv.1 with
            | none => none
            | some b =>
                if b.drv_path ≠ kv.2.drv_path then some (b, kv.2) else none))).getD
          false) = true
        ↔ ((kv.1 == p) && modFlag m n p) = true := by
    intro kv hkv
    have h2 : kv.2.attr_path = kv.1 := hco kv hkv
    have hfind : dictFind n kv.1 = some kv.2 :=
      mem_dictFind hnd (by simpa using hkv)
    by_cases hk : kv.1 = p
    · rcases hb : dictFind m kv.1 with _ | b
      · have hflag : modFlag m n p = false := by
          rw [modFlag, ← hk, hb]
        simp [hflag]
      · by_cases hne : b.drv_path ≠ kv.2.drv_path
        · have hflag : modFlag m n p = true := by
            rw [modFlag, ← hk, hb, hfind]
            simpa [bne_iff_ne] using hne
          simp [hne, h2, hk, hflag]
        · have hflag : modFlag m n p = false := by
            rw [modFlag, ← hk, hb, hfind]
            simpa [bne_iff_ne] using hne
          simp [hne, hflag]
    · rcases hb : dictFind m kv.1 with _ | b
      · simp [hk]
      · by_cases hne : b.drv_path ≠ kv.2.drv_path
        · simp [hne, h2, hk]
        · simp [hne, hk]
  rw [List.countP_congr hcongr]
  cases hf : modFlag m n p
  · simp only [Bool.and_false, Bool.false_eq_true, if_false]
    simp
  · simp only [Bool.and_true]
    rw [countP_key hnd]
    have : dictFind n p ≠ none := by
      intro hnone
      rw [modFlag, hnone] at hf
      rcases dictFind m p with _ | b <;> simp at hf
    rcases hnp : dictFind n p with _ | t
    · exact absurd hnp this
    · simp

theorem mem_added_spec {bs ts : List DerivationInfo} {d : DerivationInfo}
    (h : d ∈ (compare_outputs bs ts).added) :
    dictFind (buildMap bs) d.attr_path = none ∧
      dictFind (buildMap ts) d.attr_path = some d := by
  rw [compare_outputs_added] at h
  simp only [List.mem_map, List.mem_filter] at h
  obtain ⟨kv, ⟨hmem, hnone⟩, rfl⟩ := h
  obtain ⟨hnd, hco⟩ := dictWF_buildMap ts
  have hkey : kv.2.attr_path = kv.1 := hco kv hmem
  refine ⟨?_, ?_⟩
  · rw [hkey]; exact Option.isNone_iff_eq_none.mp hnone
  · rw [hkey]
    have : (kv.1, kv.2) ∈ buildMap ts := by simpa using hmem
    exact mem_dictFind hnd this

theorem mem_removed_spec {bs ts : List DerivationInfo} {d : DerivationInfo}
    (h : d ∈ (compare_outputs bs ts).removed) :
    dictFind (buildMap ts) d.attr_path = none ∧
      dictFind (buildMap bs) d.attr_path = some d := by
  rw [compare_outputs_removed] at h
  simp only [List.mem_map, List.mem_filter] at h
  obtain ⟨kv, ⟨hmem, hnone⟩, rfl⟩ := h
  obtain ⟨hnd, hco⟩ := dictWF_buildMap bs
  have hkey : kv.2.attr_path = kv.1 := hco kv hmem
  refine ⟨?_, ?_⟩
  · rw [hkey]; exact Option.isNone_iff_eq_none.mp hnone
  · rw [hkey]
    have : (kv.1, kv.2) ∈ buildMap bs := by simpa using hmem
    exact mem_dictFind hnd this

theorem mem_modified_spec {bs ts : List DerivationInfo}
    {q : DerivationInfo × DerivationInfo}
    (h : q ∈ (compare_outputs bs ts).modified) :
    dictFind (buildMap bs) q.2.attr_path = some q.1 ∧
      dictFind (buildMap ts) q.2.attr_path = some q.2 ∧
      q.1.drv_path ≠ q.2.drv_path := by
  rw [compare_outputs_modified] at h
  simp only [List.mem_filterMap] at h
  obtain ⟨kv, hmem, hq⟩ := h
  obtain ⟨hnd, hco⟩ := dictWF_buildMap ts
  have hkey : kv.2.attr_path = kv.1 := hco kv hmem
  rcases hfind : dictFind (buildMap bs) kv.1 with _ | b <;> rw [hfind] at hq <;>
    dsimp only at hq
  · simp at hq
  · by_cases hne : b.drv_path ≠ kv.2.drv_path
    · rw [if_pos hne] at hq
      injection hq with hq
      subst hq
      refine ⟨by simp only [hkey]; exact hfind, ?_, hne⟩
      simp only [hkey]
      have : (kv.1, kv.2) ∈ buildMap ts := by simpa using hmem
      exact mem_dictFind hnd this
    · simp [hne] at hq

/-- C1: `compare_outputs` classifies each unit path into exactly one outcome
or none: a path only in the target map is added (as the target unit, exactly
once), a path only in the base map is removed, a path in both with differing
`drv_path` is modified as the pair (base unit, target unit), and a path in
both with equal `drv_path` appears in none of the three lists; the three
outcome counts for any path sum to at most one. -/
theorem compare_outputs_classification (bs ts : List DerivationInfo) (p : String) :
    (countPath (compare_outputs bs ts).added p
      = if ((dictFind (buildMap bs) p).isNone && (dictFind (buildMap ts) p).isSome)
        then 1 else 0)
  ∧ (countPath (compare_outputs bs ts).removed p
      = if ((dictFind (buildMap ts) p).isNone && (dictFind (buildMap bs) p).isSome)
        then 1 else 0)
  ∧ (countPathPair (compare_outputs bs ts).modified p
      = if modFlag (buildMap bs) (buildMap ts) p then 1 else 0)
  ∧ (countPath (compare_outputs bs ts).added p
      + countPath (compare_outputs bs ts).removed p
      + countPathPair (compare_outputs bs ts).modified p ≤ 1)
  ∧ (∀ d ∈ (compare_outputs bs ts).added,
      dictFind (buildMap bs) d.attr_path = none
      ∧ dictFind (buildMap ts) d.attr_path = some d)
  ∧ (∀ d ∈ (compare_outputs bs ts).removed,
      dictFind (buildMap ts) d.attr_path = none
      ∧ dictFind (buildMap bs) d.attr_path = some d)
  ∧ (∀ q ∈ (compare_outputs bs ts).modified,
      dictFind (buildMap bs) q.2.attr_path = some q.1
      ∧ dictFind (buildMap ts) q.2.attr_path = some q.2
      ∧ q.1.drv_path ≠ q.2.drv_path) := by
  have ha : countPath (compare_outputs bs ts).added p
      = if ((dictFind (buildMap bs) p).isNone && (dictFind (buildMap ts) p).isSome)
        then 1 else 0 := by
    rw [compare_outputs_added]; exact countPath_filter (dictWF_buildMap ts)
  have hr : countPath (compare_outputs bs ts).removed p
      = if ((dictFind (buildMap ts) p).isNone && (dictFind (buildMap bs) p).isSome)
        then 1 else 0 := by
    rw [compare_outputs_removed]; exact countPath_filter (dictWF_buildMap bs)
  have hm : countPathPair (compare_outputs bs ts).modified p
      = if modFlag (buildMap bs) (buildMap ts) p then 1 else 0 := by
    rw [compare_outputs_modified]; exact countPathPair_filterMap (dictWF_buildMap ts)
  refine ⟨ha, hr, hm, ?_, fun d h => mem_added_spec h, fun d h => mem_removed_spec h,
    fun q h => mem_modified_spec h⟩
  rw [ha, hr, hm]
  rcases hb : dictFind (buildMap bs) p with _ | b <;>
    rcases ht : dictFind (buildMap ts) p with _ | t <;>
      (simp [modFlag, hb, ht]; try (split <;> simp))

/-- C7: `compare_outputs` is anti-symmetric on added/removed — the added list
of `compare_outputs A B` equals the removed list of `compare_outputs B A` and
vice versa — and comparing a snapshot with itself yields empty added, removed
and modified lists. -/
theorem compare_outputs_antisym (a b : List DerivationInfo) :
    (compare_outputs a b).added = (compare_outputs b a).removed
  ∧ (compare_outputs a b).removed = (compare_outputs b a).added
  ∧ compare_outputs a a = ChangeSet.mk [] [] [] := by
  refine ⟨rfl, rfl, ?_⟩
  obtain ⟨hnd, hco⟩ := dictWF_buildMap a
  have hself : ∀ kv ∈ buildMap a, dictFind (buildMap a) kv.1 = some kv.2 := by
    intro kv hmem
    exact mem_dictFind hnd (by simpa using hmem)
  have hadd : (compare_outputs a a).added = [] := by
    rw [compare_outputs_added]
    rw [List.filter_eq_nil_iff.mpr]
    · rfl
    · intro kv hmem
      simp [hself kv hmem]
  have hrem : (compare_outputs a a).removed = [] := by
    rw [compare_outputs_removed]
    rw [List.filter_eq_nil_iff.mpr]
    · rfl
    · intro kv hmem
      simp [hself kv hmem]
  have hmod : (compare_outputs a a).modified = [] := by
    rw [compare_outputs_modified]
    rw [List.filterMap_eq_nil_iff.mpr]
    intro kv hmem
    rw [hself kv hmem]
    simp
  rcases hcs : compare_outputs a a with ⟨ad, rm, md⟩
  rw [hcs] at hadd hrem hmod
  simp_all

/-- Python `str.strip()`: drop leading and trailing whitespace.  Implemented
structurally over the character list (the library's `String.trim` is
well-founded-recursive and so opaque to kernel evaluation). -/
def pyStrip (s : String) : String :=
  String.mk (((s.data.dropWhile Char.isWhitespace).reverse.dropWhile
    Char.isWhitespace).reverse)

/-- The groups of `Python str.split(c)` over a character list. -/
def splitChars (c : Char) : List Char → List (List Char)
  | [] => [[]]
  | ch :: rest =>
      match splitChars c rest with
      | [] => [[]]
      | grp :: grps =>
          if ch = c then [] :: grp :: grps else (ch :: grp) :: grps

/-- Python `str.split("\n")`.  Structural, kernel-evaluable equivalent of
`String.splitOn "\n"`. -/
def pySplitLines (s : String) : List String :=
  (splitChars (Char.ofNat 10) s.data).map String.mk

/-! ### `build.py` — build orchestration

The external `nix build` invocation (`run_command` with `check=False`) is an
explicit oracle `invoke : DerivationInfo → Except String ProcResult`: `.ok r`
is a completed process (any exit code), `.error e` an exception raised before
or during the spawn, carrying `str(e)`.  The thread pool's non-deterministic
completion order (`as_completed`) is an explicit reordering function on the
submitted task list, constrained to a permutation in the theorems. -/

/-- A `subprocess.CompletedProcess` as far as `build.py` reads it. -/
structure ProcResult where
  returncode : Int
  stdout : String
  stderr : String
deriving DecidableEq, Repr

/-- `BuildResult` from `build.py`. -/
structure BuildResult where
  derivation : DerivationInfo
  success : Bool
  output_path : Option String := none
  error : Option String := none
  build_log : Option String := none
deriving DecidableEq, Repr

/-- `BuildResults` from `build.py`. -/
structure BuildResults where
  results : List BuildResult
deriving DecidableEq, Repr

/-- `BuildResults.successful`. -/
def BuildResults.successful (br : BuildResults) : List BuildResult :=
  br.results.filter (fun r => r.success)

/-- `BuildResults.failed`. -/
def BuildResults.failed (br : BuildResults) : List BuildResult :=
  br.results.filter (fun r => !r.success)

/-- `BuildResults.total_count`. -/
def BuildResults.total_count (br : BuildResults) : Nat :=
  br.results.length

/-- `BuildResults.success_count`. -/
def BuildResults.success_count (br : BuildResults) : Nat :=
  br.successful.length

/-- `BuildResults.failure_count`. -/
def BuildResults.failure_count (br : BuildResults) : Nat :=
  br.failed.length

/-- `build_derivation` from `build.py`.  Python's
`result.stderr.strip() if result.stderr else "Build failed"` tests the string
for non-emptiness. -/
def build_derivation (invoke : DerivationInfo → Except String ProcResult)
    (derivation : DerivationInfo) : BuildResult :=
  match invoke derivation with
  | .ok result =>
      if result.returncode = 0 then
        { derivation := derivation
          success := true
          output_path := some (pyStrip result.stdout) }
      else
        { derivation := derivation
          success := false
          error := some (if result.stderr ≠ "" then pyStrip result.stderr
                         else "Build failed")
          build_log := some result.stderr }
  | .error e =>
      { derivation := derivation
        success := false
        error := some e }

/-- The task list of `build_changes`: `changes.added` plus the new side of
each modified pair. -/
def tasksOf (changes : ChangeSet) : List DerivationInfo :=
  changes.added ++ changes.modified.map Prod.snd

/-- `build_changes` from `build.py`.  `order` reorders the submitted tasks
into completion order (`as_completed`); the theorems require it to be a
permutation.  `future.result()` cannot raise here because `build_derivation`
catches every exception, so the `except` arm around it is unreachable and has
no image in the model. -/
def build_changes (invoke : DerivationInfo → Except String ProcResult)
    (order : List DerivationInfo → List DerivationInfo)
    (changes : ChangeSet) : BuildResults :=
  let to_build := tasksOf changes
  if to_build.isEmpty then
    BuildResults.mk []
  else
    BuildResults.mk ((order to_build).map (build_derivation invoke))

theorem build_derivation_derivation
    (invoke : DerivationInfo → Except String ProcResult) (d : DerivationInfo) :
    (build_derivation invoke d).derivation = d := by
  rw [build_derivation]
  rcases invoke d with e | r
  · rfl
  · by_cases h : r.returncode = 0 <;> simp [h]

/-- C3: every build outcome records its own invocation's result — a non-zero
exit becomes a failure whose error text is the stripped stderr, or
"Build failed" when stderr is empty; an invocation that raises becomes a
failure carrying the exception text instead of aborting the orchestrator —
and `build_changes` returns exactly one outcome per submitted unit. -/
theorem build_changes_outcomes
    (invoke : DerivationInfo → Except String ProcResult)
    (order : List DerivationInfo → List DerivationInfo) (changes : ChangeSet)
    (hperm : (order (tasksOf changes)).Perm (tasksOf changes)) :
    ((build_changes invoke order changes).results.map
        (fun r => r.derivation)).Perm (tasksOf changes)
  ∧ ∀ r ∈ (build_changes invoke order changes).results,
      r = build_derivation invoke r.derivation
      ∧ (∀ e, invoke r.derivation = .error e →
          r.success = false ∧ r.error = some e)
      ∧ (∀ pr, invoke r.derivation = .ok pr → pr.returncode ≠ 0 →
          r.success = false
          ∧ r.error = some (if pr.stderr ≠ "" then pyStrip pr.stderr
                            else "Build failed")
          ∧ r.build_log = some pr.stderr) := by
  have hres : (build_changes invoke order changes).results
      = (order (tasksOf changes)).map (build_derivation invoke) := by
    rw [build_changes]
    rcases h : (tasksOf changes).isEmpty
    · simp [h]
    · have : tasksOf changes = [] := List.isEmpty_iff.mp h
      have horder : order (tasksOf changes) = [] :=
        List.Perm.eq_nil (this ▸ hperm)
      simp [h, horder]
  constructor
  · rw [hres, List.map_map]
    have hfun : (fun r : BuildResult => r.derivation) ∘ build_derivation invoke
        = fun d => d := by
      funext d
      exact build_derivation_derivation invoke d
    rw [hfun, List.map_id']
    exact hperm
  · intro r hr
    rw [hres] at hr
    simp only [List.mem_map] at hr
    obtain ⟨d, _, rfl⟩ := hr
    rw [build_derivation_derivation]
    refine ⟨rfl, ?_, ?_⟩
    · intro e he
      rw [build_derivation, he]
      exact ⟨rfl, rfl⟩
    · intro pr hpr hrc
      rw [build_derivation, hpr]
      simp [hrc]

/-- A concrete unit: `packages.x86_64-linux.one`. -/
def drvOne : DerivationInfo :=
  DerivationInfo.mk "packages.x86_64-linux.one" "/nix/store/aaa-one.drv"
    "packages" "x86_64-linux" "one"

/-- A concrete unit: `packages.x86_64-linux.two`. -/
def drvTwo : DerivationInfo :=
  DerivationInfo.mk "packages.x86_64-linux.two" "/nix/store/bbb-two.drv"
    "packages" "x86_64-linux" "two"

/-- The same path as `drvTwo` with a different derivation. -/
def drvTwoNew : DerivationInfo :=
  DerivationInfo.mk "packages.x86_64-linux.two" "/nix/store/ccc-two.drv"
    "packages" "x86_64-linux" "two"

/-- A concrete builder oracle: `one` exits non-zero with diagnostics on
stderr, everything else fails to spawn. -/
def invokeMixed : DerivationInfo → Except String ProcResult := fun d =>
  if d.name = "one" then Except.ok (ProcResult.mk 1 "" "boom") else
  Except.error "spawn failed"

/-- A concrete change set: `one` added, `two` modified. -/
def changesMixed : ChangeSet :=
  ChangeSet.mk [drvOne] [] [(drvTwo, drvTwoNew)]

theorem build_changes_outcomes_witness :
    ((build_changes invokeMixed (fun l => l) changesMixed).results.map
        (fun r => r.derivation)).Perm (tasksOf changesMixed) :=
  (build_changes_outcomes invokeMixed (fun l => l) changesMixed
    (List.Perm.refl _)).1

/-- C9: a change set with no added units and no modified pairs yields an
empty `BuildResults` with zero total/success/failure counts, for every
builder oracle and completion order — i.e. without consulting the external
builder at all. -/
theorem build_changes_empty
    (invoke : DerivationInfo → Except String ProcResult)
    (order : List DerivationInfo → List DerivationInfo) (changes : ChangeSet)
    (ha : changes.added = []) (hm : changes.modified = []) :
    build_changes invoke order changes = BuildResults.mk []
  ∧ (build_changes invoke order changes).total_count = 0
  ∧ (build_changes invoke order changes).success_count = 0
  ∧ (build_changes invoke order changes).failure_count = 0 := by
  have h : build_changes invoke order changes = BuildResults.mk [] := by
    rw [build_changes]
    simp [tasksOf, ha, hm]
  refine ⟨h, ?_, ?_, ?_⟩ <;> rw [h] <;> rfl

theorem build_changes_empty_witness :
    build_changes invokeMixed (fun l => l) (ChangeSet.mk [] [drvOne] [])
      = BuildResults.mk []
  ∧ (build_changes invokeMixed (fun l => l)
      (ChangeSet.mk [] [drvOne] [])).total_count = 0
  ∧ (build_changes invokeMixed (fun l => l)
      (ChangeSet.mk [] [drvOne] [])).success_count = 0
  ∧ (build_changes invokeMixed (fun l => l)
      (ChangeSet.mk [] [drvOne] [])).failure_count = 0 :=
  build_changes_empty invokeMixed (fun l => l) (ChangeSet.mk [] [drvOne] [])
    rfl rfl

/-- C6 counterexample: when the invocation raises (spawn failure), the
recorded outcome has `success = false` but `build_log = none`, so "build log
present iff failure" is false as stated. -/
theorem build_derivation_exception_no_log :
    (build_derivation (fun _ => Except.error "boom") drvOne).success = false
  ∧ (build_derivation (fun _ => Except.error "boom") drvOne).build_log
      = none :=
  ⟨rfl, rfl⟩

/-- C6 (amended): `output_path` is present iff the success flag is true and
the error text is present iff it is false; the build log, however, is present
exactly when the failure came from a non-zero exit of a spawned process — it
is absent when the invocation raised an exception. -/
theorem build_derivation_field_invariants
    (invoke : DerivationInfo → Except String ProcResult) (d : DerivationInfo) :
    ((build_derivation invoke d).output_path.isSome
      ↔ (build_derivation invoke d).success = true)
  ∧ ((build_derivation invoke d).error.isSome
      ↔ (build_derivation invoke d).success = false)
  ∧ ((build_derivation invoke d).build_log.isSome
      ↔ ∃ pr, invoke d = Except.ok pr ∧ pr.returncode ≠ 0) := by
  rcases hi : invoke d with e | r
  · rw [build_derivation, hi]
    simp
  · by_cases hrc : r.returncode = 0
    · rw [build_derivation, hi]
      simp only [hrc, if_true]
      refine ⟨by simp, by simp, ?_⟩
      simp only [Option.isSome_none, Bool.false_eq_true, false_iff]
      rintro ⟨pr, hpr, hne⟩
      rw [Except.ok.injEq] at hpr
      exact hne (hpr ▸ hrc)
    · rw [build_derivation, hi]
      simp only [hrc, if_false]
      refine ⟨by simp, by simp, ?_⟩
      simp only [Option.isSome_some, true_iff]
      exact ⟨r, rfl, hrc⟩

/-! ### `report.py` — the JSON report document model

The persisted JSON report produced by `generate_json_report` and consumed by
`load_json_report` / `merge_json_reports` / `_render_markdown_from_json`.
A field that may be missing from the document (`"version" not in data`,
`data.get("metadata", {})`, `data.get("changes", {})`) is an `Option`.
Python truthiness on an optional string (`if build.get("output_path"):`) is
`strTruthy`. -/

/-- `metadata` of a JSON report. -/
structure ReportMeta where
  requested_systems : List String
  available_systems : List String
deriving DecidableEq, Repr

/-- A serialized `BuildResult` (`_build_to_dict`). -/
structure BuildInfo where
  success : Bool
  output_path : Option String
  error : Option String
deriving DecidableEq, Repr

/-- An entry of `changes.added`: a serialized unit plus its build outcome. -/
structure AddedEntry where
  attr_path : String
  drv_path : String
  output_type : String
  system : String
  name : String
  build : Option BuildInfo
deriving DecidableEq, Repr

/-- An entry of `changes.modified`. -/
structure ModifiedEntry where
  old : DerivationInfo
  new : DerivationInfo
  nix_diff : Option String
  build : Option BuildInfo
deriving DecidableEq, Repr

/-- `changes` of a JSON report. -/
structure ReportChanges where
  added : List AddedEntry
  removed : List DerivationInfo
  modified : List ModifiedEntry
deriving DecidableEq, Repr

/-- A persisted JSON report document. -/
structure ReportDoc where
  version : Option Nat
  metadata : Option ReportMeta
  changes : Option ReportChanges
deriving DecidableEq, Repr

/-- `data.get("metadata", {})`. -/
def metaOf (d : ReportDoc) : ReportMeta :=
  d.metadata.getD (ReportMeta.mk [] [])

/-- `data.get("changes", {})`. -/
def changesOf (d : ReportDoc) : ReportChanges :=
  d.changes.getD (ReportChanges.mk [] [] [])

/-- Python truthiness of an optional string: present and non-empty. -/
def strTruthy : Option String → Bool
  | none => false
  | some s => s != ""

/-- Python `sorted(...)` on a list of strings (lexicographic by code point,
as Lean's `String` order). -/
def sortStrings (l : List String) : List String :=
  List.insertionSort (fun a b => a ≤ b) l

/-- `_format_build_error` from `report.py`. -/
def format_build_error (error : String) (markdown : Bool) : List String :=
  let error_lines := (pySplitLines (pyStrip error)).filter
      (fun line => pyStrip line != "")
  if error_lines.isEmpty then []
  else if markdown then
    ["  <details>", "  <summary>Build error</summary>\n", "  ```"]
      ++ error_lines.map (fun l => "  " ++ l)
      ++ ["  ```\n", "  </details>"]
  else
    (error_lines.drop (error_lines.length - 20)).map (fun l => "    " ++ l)

/-- `_format_diff_section` from `report.py` (`if not diff: return []`). -/
def format_diff_section (diff : Option String) (markdown : Bool) : List String :=
  match diff with
  | none => []
  | some d =>
      if d = "" then []
      else if markdown then
        ["  <details>", "  <summary>Derivation diff</summary>\n", "  ```diff"]
          ++ (pySplitLines d).map (fun l => "  " ++ l)
          ++ ["  ```\n", "  </details>"]
      else
        (pySplitLines d).map (fun l => "    " ++ l)

/-- The per-entry body of the `added` loop of `_render_markdown_from_json`. -/
def renderAddedEntry (entry : AddedEntry) : List String :=
  match entry.build with
  | some build =>
      if build.success then
        ["- ✅ `" ++ entry.attr_path ++ "`"]
          ++ (if strTruthy build.output_path then
              ["  - Output: `" ++ build.output_path.getD "" ++ "`"] else [])
      else
        ["- ❌ `" ++ entry.attr_path ++ "` (build failed)"]
          ++ (if strTruthy build.error then
              format_build_error (build.error.getD "") true else [])
  | none => ["- `" ++ entry.attr_path ++ "`"]

/-- The per-entry body of the `modified` loop of
`_render_markdown_from_json`. -/
def renderModifiedEntry (entry : ModifiedEntry) : List String :=
  (match entry.build with
   | some build =>
      if build.success then
        ["- ✅ `" ++ entry.new.attr_path ++ "`"]
          ++ (if strTruthy build.output_path then
              ["  - Output: `" ++ build.output_path.getD "" ++ "`"] else [])
      else
        ["- ❌ `" ++ entry.new.attr_path ++ "` (build failed)"]
          ++ (if strTruthy build.error then
              format_build_error (build.error.getD "") true else [])
   | none => ["- `" ++ entry.new.attr_path ++ "`"])
  ++ format_diff_section entry.nix_diff true

/-- `_render_markdown_from_json` from `report.py`: the Markdown view of a
structured report document. -/
def render_markdown_from_json (data : ReportDoc) (title : String) : String :=
  let available := (metaOf data).available_systems
  let requested := (metaOf data).requested_systems
  let added := (changesOf data).added
  let removed := (changesOf data).removed
  let modified := (changesOf data).modified
  let lines := ["# " ++ title ++ "\n"]
    ++ (if !available.isEmpty then
        ["**Available systems:** "
          ++ String.intercalate ", " (sortStrings available)] else [])
    ++ (if !requested.isEmpty then
        ["**Requested systems:** "
          ++ String.intercalate ", " (sortStrings requested)] else [])
    ++ (if !available.isEmpty || !requested.isEmpty then [""] else [])
    ++ (if !added.isEmpty then
        ["### ➕ Added (" ++ toString added.length ++ ")\n"]
          ++ (added.map renderAddedEntry).flatten ++ [""] else [])
    ++ (if !modified.isEmpty then
        ["### 🔄 Modified (" ++ toString modified.length ++ ")\n"]
          ++ (modified.map renderModifiedEntry).flatten ++ [""] else [])
    ++ (if !removed.isEmpty then
        ["### ➖ Removed (" ++ toString removed.length ++ ")\n"]
          ++ removed.map (fun entry => "- `" ++ entry.attr_path ++ "`")
          ++ [""] else [])
    ++ ["---\n*Generated by [flake-review](https://github.com/ojsef39/flake-review)*"]
  String.intercalate "\n" lines

/-- `load_json_report` from `report.py`: the document paired with its path;
missing `version` or `changes` keys are the `none` fields. -/
def load_json_report (path : String) (data : ReportDoc) :
    Except String ReportDoc :=
  if data.version = none ∨ data.changes = none then
    Except.error ("Invalid JSON report: " ++ path)
  else Except.ok data

/-- The load phase of the `merge_json_reports` loop: load each file in
order, stopping at the first invalid one. -/
def loadReports : List (String × ReportDoc) → Except String (List ReportDoc)
  | [] => Except.ok []
  | (path, data) :: rest =>
      match load_json_report path data with
      | Except.error e => Except.error e
      | Except.ok d =>
          match loadReports rest with
          | Except.error e => Except.error e
          | Except.ok ds => Except.ok (d :: ds)

/-- The accumulation phase of `merge_json_reports`: union of the metadata
sets (Python `set.update` then `sorted`), concatenation of the change
entries, version fixed to 1. -/
def merge_json_docs (docs : List ReportDoc) : ReportDoc :=
  let all_available :=
    sortStrings ((docs.map (fun d => (metaOf d).available_systems)).flatten.dedup)
  let all_requested :=
    sortStrings ((docs.map (fun d => (metaOf d).requested_systems)).flatten.dedup)
  let all_added := (docs.map (fun d => (changesOf d).added)).flatten
  let all_removed := (docs.map (fun d => (changesOf d).removed)).flatten
  let all_modified := (docs.map (fun d => (changesOf d).modified)).flatten
  ReportDoc.mk (some 1) (some (ReportMeta.mk all_requested all_available))
    (some (ReportChanges.mk all_added all_removed all_modified))

/-- `merge_json_reports` from `report.py`: each input file is its path
paired with its parsed document. -/
def merge_json_reports (report_files : List (String × ReportDoc))
    (title : String) : Except String String :=
  match loadReports report_files with
  | Except.error e => Except.error e
  | Except.ok docs =>
      Except.ok (render_markdown_from_json (merge_json_docs docs) title)

/-! ### `format_detailed_changes` and `merge_markdown_reports` -/

/-- `format_detailed_changes` from `report.py`.  `nixDiff` is the external
`_get_nix_diff` subprocess: arguments old `drv_path`, new `drv_path` and the
`color` flag (`not markdown`); its result is `None` on failure. -/
def format_detailed_changes (nixDiff : String → String → Bool → Option String)
    (changes : ChangeSet) (results : BuildResults) (markdown : Bool) : String :=
  let result_map := buildDict (fun r => r.derivation.attr_path) results.results
  let addedLines :=
    if !changes.added.isEmpty then
      ["### ➕ Added (" ++ toString changes.added.length ++ ")\n"]
        ++ (changes.added.map (fun drv =>
            match dictFind result_map drv.attr_path with
            | some result =>
                if result.success then
                  ["- ✅ `" ++ drv.attr_path ++ "`"]
                    ++ (if strTruthy result.output_path then
                        ["  - Output: `" ++ result.output_path.getD "" ++ "`"]
                        else [])
                else
                  ["- ❌ `" ++ drv.attr_path ++ "` (build failed)"]
                    ++ (if strTruthy result.error then
                        format_build_error (result.error.getD "") markdown
                        else [])
            | none => ["- `" ++ drv.attr_path ++ "`"])).flatten
        ++ [""]
    else []
  let modifiedLines :=
    if !changes.modified.isEmpty then
      ["### 🔄 Modified (" ++ toString changes.modified.length ++ ")\n"]
        ++ (changes.modified.map (fun q =>
            (match dictFind result_map q.2.attr_path with
             | some result =>
                if result.success then
                  ["- ✅ `" ++ q.2.attr_path ++ "`"]
                    ++ (if strTruthy result.output_path then
                        ["  - Output: `" ++ result.output_path.getD "" ++ "`"]
                        else [])
                else
                  ["- ❌ `" ++ q.2.attr_path ++ "` (build failed)"]
                    ++ (if strTruthy result.error then
                        format_build_error (result.error.getD "") markdown
                        else [])
             | none => ["- `" ++ q.2.attr_path ++ "`"])
            ++ format_diff_section (nixDiff q.1.drv_path q.2.drv_path (!markdown))
                markdown)).flatten
        ++ [""]
    else []
  let removedLines :=
    if !changes.removed.isEmpty then
      ["### ➖ Removed (" ++ toString changes.removed.length ++ ")\n"]
        ++ changes.removed.map (fun drv => "- `" ++ drv.attr_path ++ "`")
        ++ [""]
    else []
  String.intercalate "\n" (addedLines ++ modifiedLines ++ removedLines)

/-- `"Generated by [flake-review]" in line`: substring containment. -/
def hasSubstr (s pat : String) : Bool :=
  (List.range (s.length + 1)).any (fun i => pat.isPrefixOf (s.drop i))

/-- One step of the line filter of `merge_markdown_reports`: drop level-1
headings, footer lines, and a leading `---` while nothing was kept yet. -/
def stripStep (filtered : List String) (line : String) : List String :=
  if line.startsWith "# " then filtered
  else if hasSubstr line "Generated by [flake-review]" then filtered
  else if (pyStrip line == "---") && filtered.isEmpty then filtered
  else filtered ++ [line]

/-- The trailing trim condition of `merge_markdown_reports`. -/
def isBlankOrRule (l : String) : Bool :=
  (pyStrip l == "") || (pyStrip l == "---")

/-- The per-file body of the `merge_markdown_reports` loop: strip titles,
footers and edge rules from one report's content. -/
def strip_body (content : String) : List String :=
  let lines := pySplitLines (pyStrip content)
  let filtered := lines.foldl stripStep []
  ((filtered.dropWhile isBlankOrRule).reverse.dropWhile isBlankOrRule).reverse

/-- `merge_markdown_reports` from `report.py`; each element of
`report_files` is one file's content. -/
def merge_markdown_reports (report_files : List String) (title : String) :
    String :=
  let sections := (report_files.map strip_body).filterMap
      (fun filtered =>
        if filtered.isEmpty then none
        else some (String.intercalate "\n" filtered))
  "# " ++ title ++ "\n\n" ++ String.intercalate "\n\n---\n\n" sections
    ++ "\n\n---\n*Generated by [flake-review](https://github.com/ojsef39/flake-review)*"

/-! ### Theorems about the report merge and renderers -/

theorem sum_map_add3 {α : Type} (f g h : α → Nat) (l : List α) :
    (l.map f).sum + (l.map g).sum + (l.map h).sum
      = (l.map (fun x => f x + g x + h x)).sum := by
  induction l with
  | nil => simp
  | cons a t ih =>
      simp only [List.map_cons, List.sum_cons]
      omega

theorem mem_sortStrings_dedup_flatten (ls : List (List String)) (s : String) :
    s ∈ sortStrings ls.flatten.dedup ↔ ∃ l ∈ ls, s ∈ l := by
  rw [sortStrings, List.Perm.mem_iff (List.perm_insertionSort _ _),
    List.mem_dedup, List.mem_flatten]

theorem nodup_sortStrings_dedup (l : List String) :
    (sortStrings l.dedup).Nodup := by
  rw [sortStrings]
  exact ((List.perm_insertionSort _ _).nodup_iff).mpr (List.nodup_dedup _)

/-- C2: the merged document's `requested_systems` and `available_systems`
are each the duplicate-eliminating set union of the inputs', and its
`added`, `removed` and `modified` lists are the concatenations of the
inputs' lists, so the merged change-list length is the sum of the inputs'
change-list lengths. -/
theorem merge_json_reports_combination (docs : List ReportDoc) :
    ((metaOf (merge_json_docs docs)).requested_systems.Nodup)
  ∧ ((metaOf (merge_json_docs docs)).available_systems.Nodup)
  ∧ (∀ s, s ∈ (metaOf (merge_json_docs docs)).requested_systems
      ↔ ∃ d ∈ docs, s ∈ (metaOf d).requested_systems)
  ∧ (∀ s, s ∈ (metaOf (merge_json_docs docs)).available_systems
      ↔ ∃ d ∈ docs, s ∈ (metaOf d).available_systems)
  ∧ (changesOf (merge_json_docs docs)).added
      = (docs.map (fun d => (changesOf d).added)).flatten
  ∧ (changesOf (merge_json_docs docs)).removed
      = (docs.map (fun d => (changesOf d).removed)).flatten
  ∧ (changesOf (merge_json_docs docs)).modified
      = (docs.map (fun d => (changesOf d).modified)).flatten
  ∧ (changesOf (merge_json_docs docs)).added.length
      + (changesOf (merge_json_docs docs)).removed.length
      + (changesOf (merge_json_docs docs)).modified.length
      = (docs.map (fun d => (changesOf d).added.length
          + (changesOf d).removed.length
          + (changesOf d).modified.length)).sum := by
  refine ⟨nodup_sortStrings_dedup _, nodup_sortStrings_dedup _, ?_, ?_,
    rfl, rfl, rfl, ?_⟩
  · intro s
    have h := mem_sortStrings_dedup_flatten
      (docs.map (fun d => (metaOf d).requested_systems)) s
    simp only [List.mem_map] at h
    rw [show (metaOf (merge_json_docs docs)).requested_systems
        = sortStrings ((docs.map
            (fun d => (metaOf d).requested_systems)).flatten.dedup) from rfl, h]
    constructor
    · rintro ⟨l, ⟨d, hd, rfl⟩, hs⟩
      exact ⟨d, hd, hs⟩
    · rintro ⟨d, hd, hs⟩
      exact ⟨_, ⟨d, hd, rfl⟩, hs⟩
  · intro s
    have h := mem_sortStrings_dedup_flatten
      (docs.map (fun d => (metaOf d).available_systems)) s
    simp only [List.mem_map] at h
    rw [show (metaOf (merge_json_docs docs)).available_systems
        = sortStrings ((docs.map
            (fun d => (metaOf d).available_systems)).flatten.dedup) from rfl, h]
    constructor
    · rintro ⟨l, ⟨d, hd, rfl⟩, hs⟩
      exact ⟨d, hd, hs⟩
    · rintro ⟨d, hd, hs⟩
      exact ⟨_, ⟨d, hd, rfl⟩, hs⟩
  · show ((docs.map (fun d => (changesOf d).added)).flatten.length)
        + ((docs.map (fun d => (changesOf d).removed)).flatten.length)
        + ((docs.map (fun d => (changesOf d).modified)).flatten.length) = _
    rw [List.length_flatten, List.length_flatten, List.length_flatten,
      List.map_map, List.map_map, List.map_map]
    exact sum_map_add3 _ _ _ docs

/-- `e.isOk` for `Except` (not available under this name in the library). -/
def exceptIsOk {ε α : Type} : Except ε α → Bool
  | Except.ok _ => true
  | Except.error _ => false

/-- A well-keyed report document with schema version 1. -/
def docVersionOne : ReportDoc :=
  ReportDoc.mk (some 1)
    (some (ReportMeta.mk ["x86_64-linux"] ["x86_64-linux"]))
    (some (ReportChanges.mk [] [] []))

/-- A well-keyed report document with schema version 2. -/
def docVersionTwo : ReportDoc :=
  ReportDoc.mk (some 2) none (some (ReportChanges.mk [] [drvOne] []))

/-- C4 counterexample: two inputs with differing schema versions (1 and 2)
are merged without any error — the merge never compares version values. -/
theorem merge_json_reports_version_mismatch_ok :
    docVersionOne.version ≠ docVersionTwo.version
  ∧ exceptIsOk (merge_json_reports
      [("a.json", docVersionOne), ("b.json", docVersionTwo)] "Merged")
      = true := by
  exact ⟨by decide, rfl⟩

theorem loadReports_error_iff (files : List (String × ReportDoc)) :
    ((∃ e, loadReports files = Except.error e)
      ↔ ∃ pd ∈ files, pd.2.version = none ∨ pd.2.changes = none)
  ∧ (∀ e, loadReports files = Except.error e →
      ∃ pd ∈ files, (pd.2.version = none ∨ pd.2.changes = none)
        ∧ e = "Invalid JSON report: " ++ pd.1) := by
  induction files with
  | nil =>
      constructor
      · simp [loadReports]
      · intro e he
        simp [loadReports] at he
  | cons hd rest ih =>
      obtain ⟨p, d⟩ := hd
      by_cases hbad : d.version = none ∨ d.changes = none
      · have hload : load_json_report p d
            = Except.error ("Invalid JSON report: " ++ p) := by
          rw [load_json_report, if_pos hbad]
        have hcons : loadReports ((p, d) :: rest)
            = Except.error ("Invalid JSON report: " ++ p) := by
          rw [loadReports, hload]
        constructor
        · constructor
          · intro _
            exact ⟨(p, d), List.mem_cons_self _ _, hbad⟩
          · intro _
            exact ⟨_, hcons⟩
        · intro e he
          rw [hcons] at he
          injection he with he
          exact ⟨(p, d), List.mem_cons_self _ _, hbad, he.symm⟩
      · have hload : load_json_report p d = Except.ok d := by
          rw [load_json_report, if_neg hbad]
        rcases hrest : loadReports rest with e' | ds
        · have hcons : loadReports ((p, d) :: rest) = Except.error e' := by
            rw [loadReports, hload, hrest]
          constructor
          · constructor
            · intro _
              obtain ⟨pd, hpd, hb⟩ := ih.1.mp ⟨e', hrest⟩
              exact ⟨pd, List.mem_cons_of_mem _ hpd, hb⟩
            · intro _
              exact ⟨e', hcons⟩
          · intro e he
            rw [hcons] at he
            injection he with he
            obtain ⟨pd, hpd, hb, hename⟩ := ih.2 e' hrest
            exact ⟨pd, List.mem_cons_of_mem _ hpd, hb, he ▸ hename⟩
        · have hcons : loadReports ((p, d) :: rest) = Except.ok (d :: ds) := by
            rw [loadReports, hload, hrest]
          constructor
          · constructor
            · rintro ⟨e, he⟩
              rw [hcons] at he
              exact absurd he (by simp)
            · rintro ⟨pd, hpd, hb⟩
              rcases List.mem_cons.mp hpd with h | h
              · subst h
                exact absurd hb hbad
              · obtain ⟨e, he⟩ := ih.1.mpr ⟨pd, h, hb⟩
                rw [hrest] at he
                exact absurd he (by simp)
          · intro e he
            rw [hcons] at he
            exact absurd he (by simp)

/-- C4 (amended): the merge fails — with an explicit error naming the
offending file — exactly when some input lacks the `version` or `changes`
key; inputs that all carry both keys are merged silently, whatever their
version values. -/
theorem merge_json_reports_error_iff (files : List (String × ReportDoc))
    (title : String) :
    ((∃ e, merge_json_reports files title = Except.error e)
      ↔ ∃ pd ∈ files, pd.2.version = none ∨ pd.2.changes = none)
  ∧ (∀ e, merge_json_reports files title = Except.error e →
      ∃ pd ∈ files, (pd.2.version = none ∨ pd.2.changes = none)
        ∧ e = "Invalid JSON report: " ++ pd.1) := by
  rcases h : loadReports files with e' | ds
  · have hm : merge_json_reports files title = Except.error e' := by
      rw [merge_json_reports, h]
    constructor
    · constructor
      · intro _
        exact (loadReports_error_iff files).1.mp ⟨e', h⟩
      · intro _
        exact ⟨e', hm⟩
    · intro e he
      rw [hm] at he
      injection he with he
      obtain ⟨pd, hpd, hb, hename⟩ := (loadReports_error_iff files).2 e' h
      exact ⟨pd, hpd, hb, he ▸ hename⟩
  · have hm : merge_json_reports files title
        = Except.ok (render_markdown_from_json (merge_json_docs ds) title) := by
      rw [merge_json_reports, h]
    constructor
    · constructor
      · rintro ⟨e, he⟩
        rw [hm] at he
        exact absurd he (by simp)
      · rintro hbadex
        obtain ⟨e, he⟩ := (loadReports_error_iff files).1.mpr hbadex
        rw [h] at he
        exact absurd he (by simp)
    · intro e he
      rw [hm] at he
      exact absurd he (by simp)

/-- The nix-diff oracle answering "no diff" every time. -/
def nixDiffNone : String → String → Bool → Option String := fun _ _ _ => none

/-- The nix-diff oracle answering a fixed delta every time. -/
def nixDiffSome : String → String → Bool → Option String :=
  fun _ _ _ => some "- old input"

/-- C8 counterexample: rendering the same change set, build results and
title twice, with the external nix-diff tool answering differently between
the runs, yields different text — the ChangeSet rendering depends on the
external tool, not on the report data alone. -/
theorem format_detailed_changes_external_dependence :
    format_detailed_changes nixDiffNone
        (ChangeSet.mk [] [] [(drvTwo, drvTwoNew)]) (BuildResults.mk []) true
      ≠ format_detailed_changes nixDiffSome
        (ChangeSet.mk [] [] [(drvTwo, drvTwoNew)]) (BuildResults.mk []) true :=
  ne_of_beq_false (by decide)

/-- C8 (amended): `render_markdown_from_json`, the renderer of the
structured JSON document, takes only the document and the title, so it is
deterministic by construction; `format_detailed_changes` additionally
invokes the external nix-diff tool for each modified pair, and is
independent of that tool exactly on change sets with no modified pairs. -/
theorem format_detailed_changes_oracle_free
    (o₁ o₂ : String → String → Bool → Option String) (changes : ChangeSet)
    (results : BuildResults) (markdown : Bool)
    (h : changes.modified = []) :
    format_detailed_changes o₁ changes results markdown
      = format_detailed_changes o₂ changes results markdown := by
  simp [format_detailed_changes, h]

theorem format_detailed_changes_oracle_free_witness :
    format_detailed_changes nixDiffNone (ChangeSet.mk [drvOne] [drvTwo] [])
        (BuildResults.mk []) true
      = format_detailed_changes nixDiffSome (ChangeSet.mk [drvOne] [drvTwo] [])
        (BuildResults.mk []) true :=
  format_detailed_changes_oracle_free nixDiffNone nixDiffSome _ _ _ rfl

/-- A line `merge_markdown_reports` may keep: not a level-1 heading and not
a footer line. -/
def keptLine (line : String) : Bool :=
  !(line.startsWith "# ") && !(hasSubstr line "Generated by [flake-review]")

theorem stripStep_all {acc : List String} {line : String}
    (h : ∀ x ∈ acc, keptLine x = true) :
    ∀ x ∈ stripStep acc line, keptLine x = true := by
  intro x hx
  rw [stripStep] at hx
  by_cases h1 : line.startsWith "# " = true
  · rw [if_pos h1] at hx
    exact h x hx
  · rw [if_neg h1] at hx
    by_cases h2 : hasSubstr line "Generated by [flake-review]" = true
    · rw [if_pos h2] at hx
      exact h x hx
    · rw [if_neg h2] at hx
      by_cases h3 : ((pyStrip line == "---") && acc.isEmpty) = true
      · rw [if_pos h3] at hx
        exact h x hx
      · rw [if_neg h3] at hx
        rcases List.mem_append.mp hx with hmem | hmem
        · exact h x hmem
        · have : x = line := by simpa using hmem
          subst this
          simp [keptLine, h1, h2]

theorem foldl_stripStep_all (lines : List String) :
    ∀ acc, (∀ x ∈ acc, keptLine x = true) →
      ∀ x ∈ lines.foldl stripStep acc, keptLine x = true := by
  induction lines with
  | nil =>
      intro acc h
      simpa using h
  | cons l ls ih =>
      intro acc h
      exact ih _ (stripStep_all h)

theorem strip_body_all (content : String) :
    ∀ x ∈ strip_body content, keptLine x = true := by
  intro x hx
  simp only [strip_body] at hx
  rw [List.mem_reverse] at hx
  have hx2 := (List.dropWhile_sublist _).subset hx
  rw [List.mem_reverse] at hx2
  have hx3 := (List.dropWhile_sublist _).subset hx2
  exact foldl_stripStep_all _ [] (by simp) x hx3

/-- C10: `merge_markdown_reports` assembles the stripped bodies under one
new header and footer, and the stripped body of every input is free of all
lines starting with "# " and of all lines containing
"Generated by [flake-review]" — not only the input's own title and footer
lines. -/
theorem merge_markdown_reports_strips (report_files : List String)
    (title : String) :
    (merge_markdown_reports report_files title
      = "# " ++ title ++ "\n\n"
        ++ String.intercalate "\n\n---\n\n"
            ((report_files.map strip_body).filterMap (fun filtered =>
              if filtered.isEmpty then none
              else some (String.intercalate "\n" filtered)))
        ++ "\n\n---\n*Generated by [flake-review](https://github.com/ojsef39/flake-review)*")
  ∧ ∀ content ∈ report_files, (strip_body content).all keptLine = true := by
  refine ⟨rfl, ?_⟩
  intro content _
  exact List.all_eq_true.mpr (strip_body_all content)

/-! ### `FlakeOutputs` — evaluator state and invocation counting

`flake.py`'s `FlakeOutputs` object is an explicit state record; the external
`nix eval` calls are an oracle, and every function returns, besides its value
and the successor state, the number of `nix eval` invocations it performed. -/

/-- The external evaluator as `flake.py` consumes it: `rawEval t` is the
parsed `system → names` mapping of `nix eval <flake>#t --json --apply ...`
(`none`: non-zero exit, empty stdout or a raised exception — all merged by
the source into "no entry for this output type"); `drvEval a` is the trimmed
stdout of `nix eval <flake>#a.drvPath --raw` (`none`: non-zero exit or
exception). -/
structure NixEnv where
  rawEval : String → Option (List (String × List String))
  drvEval : String → Option String

/-- The mutable fields of a `FlakeOutputs` object (`self._outputs`,
`self._derivations`), both `None` after `__init__`. -/
structure FlakeOutputsState where
  outputs : Option (List (String × List (String × List String)))
  derivations : Option (List DerivationInfo)
deriving DecidableEq, Repr

/-- `FlakeOutputs._get_raw_outputs`, instrumented with the number of
`nix eval` invocations (one per requested output type when the cache is
cold; a failing invocation contributes no entry but still counts). -/
def get_raw_outputs (env : NixEnv) (st : FlakeOutputsState)
    (output_types : Option (List String)) :
    List (String × List (String × List String)) × FlakeOutputsState × Nat :=
  match st.outputs with
  | some o => (o, st, 0)
  | none =>
      let ots := output_types.getD ["packages"]
      let result := ots.foldl
        (fun (acc : List (String × List (String × List String)) × Nat)
            (output_type : String) =>
          match env.rawEval output_type with
          | some raw => (dictInsert acc.1 output_type raw, acc.2 + 1)
          | none => (acc.1, acc.2 + 1)) ([], 0)
      (result.1, FlakeOutputsState.mk (some result.1) st.derivations, result.2)

/-- `FlakeOutputs._traverse_outputs`, specialised to the depth-two
`system → name → leaf-marker` shape that `_get_raw_outputs` always builds
(lines 73–76 of `flake.py`), on which the generic sentinel walk yields one
`(name, output_type.system.name)` pair per name. -/
def traverse_outputs (outputs : List (String × List (String × List String)))
    (output_type system : String) : List (String × String) :=
  match dictFind outputs output_type with
  | none => []
  | some sysMap =>
      match dictFind sysMap system with
      | none => []
      | some names =>
          names.map (fun name =>
            (name, output_type ++ "." ++ system ++ "." ++ name))

/-- `FlakeOutputs.get_derivations`, instrumented with the `nix eval`
invocation count (the raw listing plus one `_get_derivation_path` call per
attribute surviving the package filter).  The local `output_types` and
`systems` are re-assigned over their parameters exactly as in the source;
in particular `systems` is never `none` again once the default has been
filled in, which is the value the caching guard at the end tests. -/
def get_derivations (env : NixEnv) (st : FlakeOutputsState)
    (output_types systems package_filter : Option (List String)) :
    List DerivationInfo × FlakeOutputsState × Nat :=
  if st.derivations.isSome ∧ output_types = none ∧ systems = none
      ∧ package_filter = none then
    (st.derivations.getD [], st, 0)
  else
    let output_types := output_types.getD ["packages"]
    let raw := get_raw_outputs env st (some output_types)
    let raw_outputs := raw.1
    let st1 := raw.2.1
    let c1 := raw.2.2
    let systems : Option (List String) :=
      match systems with
      | none =>
          some (((output_types.filterMap
            (fun ot => dictFind raw_outputs ot)).map
              (fun m => m.map Prod.fst)).flatten.dedup)
      | some s => some s
    let res := output_types.foldl
      (fun (acc : List DerivationInfo × Nat) (output_type : String) =>
        if (dictFind raw_outputs output_type).isNone then acc
        else
          (systems.getD []).foldl (fun acc2 system =>
            if (dictFind ((dictFind raw_outputs output_type).getD [])
                system).isNone then acc2
            else
              (traverse_outputs raw_outputs output_type system).foldl
                (fun acc3 np =>
                  let skip := match package_filter with
                    | some pf => !(pf.contains np.1)
                    | none => false
                  if skip then acc3
                  else
                    match env.drvEval np.2 with
                    | some drv_path =>
                        (acc3.1 ++ [DerivationInfo.mk np.2 drv_path
                          output_type system np.1], acc3.2 + 1)
                    | none => (acc3.1, acc3.2 + 1)) acc2) acc) ([], 0)
    let derivations := res.1
    let st2 := if output_types = ["packages"] ∧ systems = none
        ∧ package_filter = none then
      FlakeOutputsState.mk st1.outputs (some derivations)
    else st1
    (derivations, st2, c1 + res.2)

/-- A flake exposing exactly one package,
`packages.x86_64-linux.default`. -/
def envOnePackage : NixEnv :=
  NixEnv.mk
    (fun output_type =>
      if output_type = "packages" then some [("x86_64-linux", ["default"])]
      else none)
    (fun _ => some "/nix/store/zzz-default.drv")

/-- C5 (failing input): on a one-package flake, the first all-default
`get_derivations()` call performs two `nix eval` invocations and leaves
`self._derivations` unset — the caching guard tests the re-assigned
`systems` local, which is never `None` there — so the second identical call
performs one further `nix eval` (the per-unit `drvPath` evaluation) instead
of zero. -/
theorem get_derivations_recomputes_drv_paths :
    ((get_derivations envOnePackage (FlakeOutputsState.mk none none)
        none none none).1
      = [DerivationInfo.mk "packages.x86_64-linux.default"
          "/nix/store/zzz-default.drv" "packages" "x86_64-linux" "default"])
  ∧ ((get_derivations envOnePackage (FlakeOutputsState.mk none none)
        none none none).2.2 = 2)
  ∧ ((get_derivations envOnePackage (FlakeOutputsState.mk none none)
        none none none).2.1.derivations = none)
  ∧ ((get_derivations envOnePackage
        ((get_derivations envOnePackage (FlakeOutputsState.mk none none)
          none none none).2.1) none none none).2.2 = 1) :=
  ⟨rfl, rfl, rfl, rfl⟩

end FlakeReview
